import Mathlib

/-!
A verification development for the `convert_audio_tool` core module
(`src/convert_audio_tool/core.py`).

The Python core is shallowly embedded: pure string/number manipulation is
translated into executable Lean functions over `List Char` / `String`, with
`ℚ` standing in for Python floats (every numeric value appearing in the
claims is exactly representable).  Side-effecting operations (console
output, process spawning, progress-bar updates, filesystem moves) are made
explicit as an `Effect` trace, and the operating-system facts a run depends
on (which tools are on `PATH`, whether the target file exists, the probed
duration, the lines the transcode process writes to its pipe, its exit
code) are packaged into environment records that are passed in as data.
-/

namespace ConvertAudioTool

/-! ## Python string primitives used by `core.py` -/

/-- Characters removed by Python `str.strip()` (ASCII whitespace; the
progress stream is ASCII so the exotic Unicode space classes never occur). -/
def stripChars (cs : List Char) : List Char :=
  ((cs.dropWhile Char.isWhitespace).reverse.dropWhile Char.isWhitespace).reverse

/-- Python `str.strip()`. -/
def pyStrip (s : String) : String := ⟨stripChars s.data⟩

/-- Boolean "starts with" on character lists (Python `str.startswith`). -/
def startsWithL : List Char → List Char → Bool
  | [], _ => true
  | _ :: _, [] => false
  | a :: as, b :: bs => a == b && startsWithL as bs

/-- Boolean "ends with" on character lists (Python `str.endswith`). -/
def endsWithL (suf cs : List Char) : Bool :=
  startsWithL suf.reverse cs.reverse

/-- ASCII lowercasing of a character list (Python `str.lower`; the paths
and extensions compared are ASCII). -/
def toLowerL (cs : List Char) : List Char := cs.map Char.toLower

/-- Substring test (Python `needle in haystack`). -/
def hasSub (needle : List Char) : List Char → Bool
  | [] => needle.isEmpty
  | c :: rest => startsWithL needle (c :: rest) || hasSub needle rest

/-- Python `s.split(sep, 1)` when `sep` is a single character: the part
before the first occurrence and the part after it, or `none` when `sep`
does not occur (in which case Python's 2-element destructuring raises). -/
def splitFirst (sep : Char) : List Char → Option (List Char × List Char)
  | [] => none
  | c :: rest =>
    if c == sep then some ([], rest)
    else (splitFirst sep rest).map (fun p => (c :: p.1, p.2))

/-- Value of a digit string read in base 10 (semantics of Python `int` on
a string of decimal digits). -/
def digitsToNat (cs : List Char) : Nat :=
  cs.foldl (fun a c => 10 * a + (c.toNat - 48)) 0

/-- Parse a non-empty all-digit character list. -/
def parseDigits (cs : List Char) : Option Nat :=
  if !cs.isEmpty && cs.all Char.isDigit then some (digitsToNat cs) else none

/-- Python `int(s)` on text: optional surrounding whitespace, optional
sign, then decimal digits.  (Digit-group underscores are not modelled;
no caller in `core.py` can receive them from the ffmpeg progress stream.) -/
def pyIntChars (cs : List Char) : Option Int :=
  match stripChars cs with
  | '+' :: rest => (parseDigits rest).map Int.ofNat
  | '-' :: rest => (parseDigits rest).map (fun n => -(n : Int))
  | rest => (parseDigits rest).map Int.ofNat

/-- Python `int(s)` on a `String`. -/
def pyInt (s : String) : Option Int := pyIntChars s.data

/-- Split a float literal at the first exponent marker `e`/`E`. -/
def splitExp : List Char → List Char × Option (List Char)
  | [] => ([], none)
  | c :: rest =>
    if c == 'e' || c == 'E' then ([], some rest)
    else
      let p := splitExp rest
      (c :: p.1, p.2)

/-- Mantissa of a Python float literal: `digits`, `digits.digits`,
`digits.` or `.digits` (at least one digit overall). -/
def parseMant (cs : List Char) : Option ℚ :=
  match cs.splitOn '.' with
  | [ip] => (parseDigits ip).map (fun n => (n : ℚ))
  | [ip, fp] =>
    if (!ip.isEmpty || !fp.isEmpty) && ip.all Char.isDigit && fp.all Char.isDigit then
      some ((digitsToNat ip : ℚ) + (digitsToNat fp : ℚ) / 10 ^ fp.length)
    else none
  | _ => none

/-- Exponent part: optional sign then digits. -/
def parseExp (cs : List Char) : Option Int :=
  match cs with
  | '+' :: rest => (parseDigits rest).map Int.ofNat
  | '-' :: rest => (parseDigits rest).map (fun n => -(n : Int))
  | rest => (parseDigits rest).map Int.ofNat

/-- Magnitude of a Python float literal (decimal or scientific form). -/
def pyFloatMag (cs : List Char) : Option ℚ :=
  match splitExp cs with
  | (mant, none) => parseMant mant
  | (mant, some ex) =>
    match parseMant mant, parseExp ex with
    | some m, some k => some (m * (10 : ℚ) ^ k)
    | _, _ => none

/-- Python `float(s)` on text, as an exact rational: optional surrounding
whitespace, optional sign, decimal/scientific literal.  (`inf` and `nan`
have no rational value and are not modelled; an ffmpeg `out_time` field
never carries them.) -/
def pyFloatChars (cs : List Char) : Option ℚ :=
  match stripChars cs with
  | '+' :: rest => pyFloatMag rest
  | '-' :: rest => (pyFloatMag rest).map Neg.neg
  | rest => pyFloatMag rest

/-- Python `float(s)` on a `String`. -/
def pyFloat (s : String) : Option ℚ := pyFloatChars s.data

/-! ## The progress-stream parser (`_parse_out_time` and the loop body of
`convert_media`) -/

/-- Embedding of `core.py:_parse_out_time`: parse a line `out_time=HH:MM:SS.ffffff` to
seconds.  Mirrors the Python control flow: split at the first `=` (a
missing `=` raises `ValueError`, caught → `None`), strip the value, reject
an empty value, split the value on `:` into exactly three parts, parse
them with `int`, `int`, `float`, and return `s + 60 * (m + 60 * h)`;
every parse failure yields `None`. -/
def parse_out_time (line : String) : Option ℚ :=
  match splitFirst '=' line.data with
  | none => none
  | some p =>
    let v := stripChars p.2
    if v.isEmpty then none
    else
      match v.splitOn ':' with
      | [hs, ms, ss] =>
        match pyIntChars hs, pyIntChars ms, pyFloatChars ss with
        | some h, some m, some s => some (s + 60 * ((m : ℚ) + 60 * (h : ℚ)))
        | _, _, _ => none
      | _ => none

/-- The timestamp computed for one (already stripped) progress line in the
read loop of `core.py:convert_media`: prefer `out_time_ms=` (an integer
count of microseconds, divided by 1 000 000), fall back to `out_time=`
via `_parse_out_time`, and yield nothing for any other key or any parse
failure. -/
def lineTime (line : String) : Option ℚ :=
  if startsWithL "out_time_ms=".data line.data then
    match (splitFirst '=' line.data).bind (fun p => pyIntChars p.2) with
    | some ms => some ((ms : ℚ) / 1000000)
    | none => none
  else if startsWithL "out_time=".data line.data then
    parse_out_time line
  else none

/-- The end-of-stream test in the read loop of `core.py:convert_media`:
`line.startswith("progress=") and "end" in line`. -/
def isEnd (line : String) : Bool :=
  startsWithL "progress=".data line.data && hasSub "end".data line.data

/-- One timestamp step of the read loop: given the known duration `d` and
the last-reported value `lt`, clamp the parsed timestamp to `d` and, when
it exceeds `lt`, emit a progress-bar delta and advance `lt`.  Returns the
new last-reported value and the (zero or one) emitted deltas. -/
def stepTime (d lt : ℚ) (line : String) : ℚ × List ℚ :=
  match lineTime line with
  | none => (lt, [])
  | some t0 =>
    let t := min t0 d
    if lt < t then (t, [t - lt]) else (lt, [])

/-- The read loop of `core.py:convert_media` on the known-duration path:
consume stdout lines (strip each; skip blanks; apply `stepTime`; stop
after a `progress=…end…` line).  Returns the final last-reported value
and the list of progress-bar deltas emitted, in order. -/
def consumeRun (d lt : ℚ) : List String → ℚ × List ℚ
  | [] => (lt, [])
  | raw :: rest =>
    let line := pyStrip raw
    if line.data.isEmpty then consumeRun d lt rest
    else
      let p := stepTime d lt line
      if isEnd line then p
      else
        let q := consumeRun d p.1 rest
        (q.1, p.2 ++ q.2)

/-- Python truthiness of the `duration` value at
`core.py:convert_media`'s `if not duration` test: `None` and `0.0` are
falsy. -/
def durationFalsy : Option ℚ → Bool
  | none => true
  | some d => decide (d = 0)

/-! ## Effects and environments -/

/-- Observable side effects of the core, in program order: console prints,
launching the transcode process (the `subprocess.Popen` call), advancing
the tqdm progress bar by a delta, appending a path to the in-memory
`converted_files` list, `os.makedirs(..., exist_ok=True)`, and
`shutil.move`. -/
inductive Effect where
  | print (msg : String)
  | spawn (cmd : List String)
  | pbarUpdate (delta : ℚ)
  | appendConverted (path : String)
  | mkdir (path : String)
  | move (src dst : String)
deriving DecidableEq

/-- How a call ends: a normal return, a propagated Python exception, or a
`sys.exit` with the given status. -/
inductive Outcome where
  | ok
  | raised (msg : String)
  | exited (code : Nat)
deriving DecidableEq

/-- The operating-system facts one `convert_media` call depends on:
whether `ffmpeg`/`ffprobe` are on `PATH` (`shutil.which`), whether the
output file already exists (`os.path.exists`), the value returned by
`get_media_duration` (itself best-effort: `None` on any probe failure),
whether the `subprocess.Popen` call raises (and the exception's text),
the lines the process writes to stdout, and its exit code. -/
structure FileEnv where
  ffmpegFound : Bool
  ffprobeFound : Bool
  outputExists : Bool
  probedDuration : Option ℚ
  spawnError : Option String
  stdoutLines : List String
  exitCode : Int

/-- The argument vector built in `core.py:convert_media` (the `-progress
pipe:1` flag placed before the output URL, `-y`/`-n` mirroring
`overwrite`). -/
def ffmpegCommand (input_file output_file : String) (overwrite : Bool) : List String :=
  ["ffmpeg", "-hide_banner", "-loglevel", "error", "-progress", "pipe:1", "-nostats",
   if overwrite then "-y" else "-n", "-i", input_file, output_file]

/-- The prints after `process.wait()` in `core.py:convert_media`:
`OK` when the exit code is zero and not quiet, the conversion-error line
when it is non-zero (printed even when quiet). -/
def exitReport (input_file output_file : String) (quiet : Bool) (ret : Int) : List Effect :=
  if ret = 0 then
    if quiet then [] else [.print ("OK  " ++ input_file ++ " -> " ++ output_file)]
  else [.print ("Error during conversion: " ++ input_file ++ " -> " ++ output_file)]

/-- The progress-bar deltas of the known-duration path: the deltas of the
read loop, then — after `process.wait()` — a final forced delta
`duration - last_t` when the bar has not reached `duration`. -/
def progressEffects (d : ℚ) (lines : List String) : List Effect :=
  let r := consumeRun d 0 lines
  r.2.map Effect.pbarUpdate ++ (if r.1 < d then [Effect.pbarUpdate (d - r.1)] else [])

/-- Embedding of `core.py:convert_media` over a `FileEnv`.

Control flow mirrors the source: `check_ffmpeg()` raises (before the
`try` block!) when a tool is missing; then the skip-if-exists check; then
`get_media_duration`; then, inside the `try`, the `Popen` call (a spawn
failure is caught by the blanket `except` and logged); the falsy-duration
drain path or the progress-bar path; and the exit-code report.  Returns
the effect trace and the outcome. -/
def convert_media (env : FileEnv) (input_file output_file : String)
    (overwrite quiet : Bool) : List Effect × Outcome :=
  if env.ffmpegFound = false then
    ([], .raised "ffmpeg is not installed or not found in PATH.")
  else if env.ffprobeFound = false then
    ([], .raised "ffprobe is not installed or not found in PATH.")
  else if env.outputExists && !overwrite then
    ((if quiet then [] else [.print ("Skipping (exists): " ++ output_file)]), .ok)
  else
    let cmd := ffmpegCommand input_file output_file overwrite
    match env.spawnError with
    | some e =>
      ([.spawn cmd, .print ("Error converting " ++ input_file ++ ": " ++ e)], .ok)
    | none =>
      if durationFalsy env.probedDuration then
        (.spawn cmd :: exitReport input_file output_file quiet env.exitCode, .ok)
      else
        match env.probedDuration with
        | some d =>
          (.spawn cmd :: (progressEffects d env.stdoutLines
            ++ exitReport input_file output_file quiet env.exitCode), .ok)
        | none =>
          (.spawn cmd :: exitReport input_file output_file quiet env.exitCode, .ok)

/-- The progress-bar deltas occurring in an effect trace, in order. -/
def pbarUpdates (effs : List Effect) : List ℚ :=
  effs.filterMap fun e =>
    match e with
    | .pbarUpdate q => some q
    | _ => none

/-- The paths appended to the `converted_files` list in an effect trace,
in order. -/
def convertedOf (effs : List Effect) : List String :=
  effs.filterMap fun e =>
    match e with
    | .appendConverted p => some p
    | _ => none

/-! ## Filesystem model and `iter_media_files` -/

/-- Embedding of `core.py:MEDIA_EXTENSIONS`. -/
def MEDIA_EXTENSIONS : List String :=
  [".wav", ".flac", ".aac", ".ogg", ".mp3", ".mp4", ".m4a", ".mxf", ".mov", ".avi"]

/-- The filter applied to a candidate path in `iter_media_files`:
`full.lower().endswith(MEDIA_EXTENSIONS)` (a tuple argument to
`str.endswith` means "any of"). -/
def mediaMatch (full : String) : Bool :=
  MEDIA_EXTENSIONS.any fun ext => endsWithL ext.data (toLowerL full.data)

/-- A directory entry as the scan sees it: its name and the value of
`os.path.isfile` on its full path (false for subdirectories, dangling
symlinks and special files). -/
structure DirEntry where
  name : String
  isFile : Bool
deriving DecidableEq

/-- Embedding of `os.path.join` for POSIX paths, on the cases the core exercises. -/
def pyJoin (a b : String) : String :=
  if startsWithL "/".data b.data then b
  else if a.data.isEmpty then b
  else if endsWithL "/".data a.data then a ++ b
  else a ++ "/" ++ b

/-- Embedding of `os.path.basename` for POSIX paths: the part after the last slash. -/
def pyBasename (s : String) : String :=
  ⟨(s.data.reverse.takeWhile (· != '/')).reverse⟩

/-- The root part of `os.path.splitext` on a basename: cut at the last
dot, except that the leading dots of the name never start an extension. -/
def splitextRoot (s : String) : String :=
  let cs := s.data
  let lead := cs.takeWhile (· == '.')
  let rest := cs.drop lead.length
  if rest.contains '.' then
    ⟨lead ++ ((rest.reverse.dropWhile (· != '.')).reverse).dropLast⟩
  else s

/-- What the scan of `convert_folder` can observe of the filesystem: the
input folder's `os.path.isdir` status, its `os.listdir` entries (with
their `isfile` status), the `(dirpath, filenames)` pairs `os.walk` yields
in order (the unused `dirnames` component is omitted), and the
`FileEnv` each single-file conversion runs against. -/
structure FolderEnv where
  isDir : Bool
  listing : List DirEntry
  walk : List (String × List DirEntry)
  fileEnv : String → FileEnv

/-- Embedding of `core.py:iter_media_files`: in recursive mode, every `os.walk`
directory contributes its files that pass the `isfile` and extension
checks; otherwise only the `os.listdir` entries of the input folder are
considered. -/
def iter_media_files (env : FolderEnv) (input_folder : String) (recursive : Bool) :
    List String :=
  if recursive then
    (env.walk.map fun rf =>
      ((rf.2.filter fun e => e.isFile && mediaMatch (pyJoin rf.1 e.name)).map
        fun e => pyJoin rf.1 e.name)).flatten
  else
    (env.listing.filter fun e =>
      e.isFile && mediaMatch (pyJoin input_folder e.name)).map
      fun e => pyJoin input_folder e.name

/-! ## `convert_folder` -/

/-- The output path derived for a source file in `convert_folder`:
`os.path.join(output_folder, splitext(basename(src))[0] + output_ext)`. -/
def targetFor (output_folder output_ext src : String) : String :=
  pyJoin output_folder (splitextRoot (pyBasename src) ++ output_ext)

/-- The per-file loop of `core.py:convert_folder`: call `convert_media`
on each source (a raised exception propagates, abandoning the rest of the
loop and the converted list), then append the source to
`converted_files`.  Returns the effect trace, the converted list, and the
propagated exception text if any. -/
def batchRun (env : FolderEnv) (output_folder output_ext : String)
    (overwrite quiet : Bool) : List String → List Effect × List String × Option String
  | [] => ([], [], none)
  | src :: rest =>
    let r := convert_media (env.fileEnv src) src (targetFor output_folder output_ext src)
      overwrite quiet
    match r.2 with
    | .raised msg => (r.1, [], some msg)
    | _ =>
      let t := batchRun env output_folder output_ext overwrite quiet rest
      (r.1 ++ Effect.appendConverted src :: t.1, src :: t.2.1, t.2.2)

/-- Embedding of `core.py:convert_folder` over a `FolderEnv`:
`sys.exit(1)` after a message when the input folder is not a directory;
otherwise create the output folder, run the per-file loop over
`iter_media_files`, and — when an archive folder is given — create it,
move every converted source there under its basename, and print the
summary unless quiet. -/
def convert_folder (env : FolderEnv) (input_folder output_folder : String)
    (output_ext : String) (recursive overwrite quiet : Bool)
    (archive_folder : Option String) : List Effect × Outcome :=
  if env.isDir = false then
    ([.print ("Input folder does not exist: " ++ input_folder)], .exited 1)
  else
    let files := iter_media_files env input_folder recursive
    let r := batchRun env output_folder output_ext overwrite quiet files
    match r.2.2 with
    | some msg => (Effect.mkdir output_folder :: r.1, .raised msg)
    | none =>
      match archive_folder with
      | none => (Effect.mkdir output_folder :: r.1, .ok)
      | some a =>
        (Effect.mkdir output_folder :: r.1
          ++ Effect.mkdir a :: (r.2.1.map fun src => Effect.move src (pyJoin a (pyBasename src)))
          ++ (if quiet then []
              else [Effect.print ("Moved " ++ toString r.2.1.length
                ++ " file(s) to archive: " ++ a)]),
         .ok)

/-! ## Concrete environments used to instantiate the theorems -/

/-- A healthy single-file environment: tools present, target absent, a
10-second probed duration, and the four-line progress stream of the
repository's own mocked-`Popen` test. -/
def wEnvProgress : FileEnv :=
  { ffmpegFound := true, ffprobeFound := true, outputExists := false,
    probedDuration := some 10, spawnError := none,
    stdoutLines := ["out_time_ms=5000000\n", "progress=continue\n",
      "out_time_ms=10000000\n", "progress=end\n"],
    exitCode := 0 }

/-- An environment in which `shutil.which("ffmpeg")` fails. -/
def wEnvNoFfmpeg : FileEnv :=
  { ffmpegFound := false, ffprobeFound := true, outputExists := false,
    probedDuration := none, spawnError := none, stdoutLines := [], exitCode := 0 }

/-- An environment in which the `Popen` call raises. -/
def wEnvSpawnFail : FileEnv :=
  { ffmpegFound := true, ffprobeFound := true, outputExists := false,
    probedDuration := none, spawnError := some "boom", stdoutLines := [],
    exitCode := 0 }

/-- An environment in which the output file already exists. -/
def wEnvSkip : FileEnv :=
  { ffmpegFound := true, ffprobeFound := true, outputExists := true,
    probedDuration := some 10, spawnError := none, stdoutLines := [], exitCode := 0 }

/-- A folder whose `os.path.isdir` check fails. -/
def wEnvNoDir : FolderEnv :=
  { isDir := false, listing := [], walk := [], fileEnv := fun _ => wEnvSkip }

/-- An existing folder holding a media file, a non-media file and a
subdirectory; every conversion in it hits the skip path. -/
def wEnvFolder : FolderEnv :=
  { isDir := true,
    listing := [⟨"a.wav", true⟩, ⟨"b.txt", true⟩, ⟨"sub", false⟩],
    walk := [("in", [⟨"a.wav", true⟩, ⟨"b.txt", true⟩]), ("in/sub", [⟨"c.MP3", true⟩])],
    fileEnv := fun _ => wEnvSkip }

/-! ## Lemmas about the progress loop -/

theorem stepTime_fst_eq (d lt : ℚ) (line : String) :
    (stepTime d lt line).1 = lt + ((stepTime d lt line).2).sum := by
  unfold stepTime
  rcases lineTime line with _ | t0
  · simp
  · by_cases h : lt < min t0 d
    · simp [h]
    · simp [h]

theorem stepTime_fst_le (d lt : ℚ) (line : String) (h : lt ≤ d) :
    (stepTime d lt line).1 ≤ d := by
  unfold stepTime
  rcases lineTime line with _ | t0
  · exact h
  · by_cases hlt : lt < min t0 d
    · simp only [hlt, ite_true]
      exact min_le_right t0 d
    · simp only [hlt, if_false, ite_false]
      exact h

theorem stepTime_pos (d lt : ℚ) (line : String) :
    ∀ u ∈ (stepTime d lt line).2, 0 < u := by
  unfold stepTime
  rcases lineTime line with _ | t0
  · simp
  · by_cases hlt : lt < min t0 d
    · intro u hu
      simp only [hlt, ite_true, List.mem_singleton] at hu
      subst hu
      linarith
    · simp [hlt]

theorem consumeRun_fst_eq (d : ℚ) (ls : List String) :
    ∀ lt, (consumeRun d lt ls).1 = lt + ((consumeRun d lt ls).2).sum := by
  induction ls with
  | nil => intro lt; simp [consumeRun]
  | cons raw rest ih =>
    intro lt
    unfold consumeRun
    by_cases hb : (pyStrip raw).data.isEmpty
    · simpa [hb] using ih lt
    · by_cases he : isEnd (pyStrip raw)
      · simpa [hb, he] using stepTime_fst_eq d lt (pyStrip raw)
      · have h1 := stepTime_fst_eq d lt (pyStrip raw)
        have h2 := ih (stepTime d lt (pyStrip raw)).1
        simp only [hb, he, if_false, Bool.false_eq_true, ite_false, ite_true]
        simp [List.sum_append]
        linarith

theorem consumeRun_fst_le (d : ℚ) (ls : List String) :
    ∀ lt, lt ≤ d → (consumeRun d lt ls).1 ≤ d := by
  induction ls with
  | nil => intro lt h; simpa [consumeRun] using h
  | cons raw rest ih =>
    intro lt h
    unfold consumeRun
    by_cases hb : (pyStrip raw).data.isEmpty
    · simpa [hb] using ih lt h
    · by_cases he : isEnd (pyStrip raw)
      · simpa [hb, he] using stepTime_fst_le d lt (pyStrip raw) h
      · simpa [hb, he] using ih _ (stepTime_fst_le d lt (pyStrip raw) h)

theorem consumeRun_pos (d : ℚ) (ls : List String) :
    ∀ lt, ∀ u ∈ (consumeRun d lt ls).2, 0 < u := by
  induction ls with
  | nil => intro lt; simp [consumeRun]
  | cons raw rest ih =>
    intro lt u hu
    unfold consumeRun at hu
    by_cases hb : (pyStrip raw).data.isEmpty
    · exact ih lt u (by simpa [hb] using hu)
    · by_cases he : isEnd (pyStrip raw)
      · exact stepTime_pos d lt (pyStrip raw) u (by simpa [hb, he] using hu)
      · simp only [hb, he, if_false, Bool.false_eq_true, ite_false, ite_true,
          List.mem_append] at hu
        rcases hu with hu | hu
        · exact stepTime_pos d lt (pyStrip raw) u hu
        · exact ih _ u hu

/-- A prefix of a list of nonnegative rationals sums to at most the whole. -/
theorem sum_of_IsPrefix_le {l p : List ℚ} (h : ∀ u ∈ l, 0 ≤ u) (hp : p <+: l) :
    p.sum ≤ l.sum := by
  obtain ⟨t, rfl⟩ := hp
  have ht : 0 ≤ t.sum := List.sum_nonneg fun u hu => h u (by simp [hu])
  simp only [List.sum_append]
  linarith

/-! ## Lemmas about effect traces -/

theorem pbarUpdates_append (a b : List Effect) :
    pbarUpdates (a ++ b) = pbarUpdates a ++ pbarUpdates b :=
  List.filterMap_append a b _

theorem pbarUpdates_nil : pbarUpdates [] = [] := rfl

theorem pbarUpdates_cons_print (m : String) (l : List Effect) :
    pbarUpdates (.print m :: l) = pbarUpdates l := rfl

theorem pbarUpdates_cons_spawn (c : List String) (l : List Effect) :
    pbarUpdates (.spawn c :: l) = pbarUpdates l := rfl

theorem convertedOf_nil : convertedOf [] = [] := rfl

theorem convertedOf_cons_print (m : String) (l : List Effect) :
    convertedOf (.print m :: l) = convertedOf l := rfl

theorem convertedOf_cons_spawn (c : List String) (l : List Effect) :
    convertedOf (.spawn c :: l) = convertedOf l := rfl

theorem convertedOf_cons_pbar (u : ℚ) (l : List Effect) :
    convertedOf (.pbarUpdate u :: l) = convertedOf l := rfl

theorem convertedOf_map_pbar (us : List ℚ) :
    convertedOf (us.map Effect.pbarUpdate) = [] := by
  induction us with
  | nil => rfl
  | cons u us ih => rw [List.map_cons, convertedOf_cons_pbar, ih]

theorem pbarUpdates_map_pbar (us : List ℚ) :
    pbarUpdates (us.map Effect.pbarUpdate) = us := by
  induction us with
  | nil => rfl
  | cons u us ih => simp [pbarUpdates] at ih ⊢; exact ih

theorem pbarUpdates_exitReport (i o : String) (q : Bool) (r : Int) :
    pbarUpdates (exitReport i o q r) = [] := by
  unfold exitReport
  by_cases hr : r = 0
  · by_cases hq : q <;> simp [hr, hq, pbarUpdates]
  · simp [hr, pbarUpdates]

theorem convertedOf_append (a b : List Effect) :
    convertedOf (a ++ b) = convertedOf a ++ convertedOf b :=
  List.filterMap_append a b _

theorem convertedOf_exitReport (i o : String) (q : Bool) (r : Int) :
    convertedOf (exitReport i o q r) = [] := by
  unfold exitReport
  by_cases hr : r = 0
  · by_cases hq : q <;> simp [hr, hq, convertedOf]
  · simp [hr, convertedOf]

/-! ## Path lemmas for `convert_media` -/

/-- When both tools are on `PATH`, `convert_media` always returns
normally: every branch after the environment check ends inside the
`try`/`except` or before any risky operation. -/
theorem convert_media_returns (env : FileEnv) (i o : String) (ow q : Bool)
    (hm : env.ffmpegFound = true) (hp : env.ffprobeFound = true) :
    (convert_media env i o ow q).2 = .ok := by
  unfold convert_media
  rw [hm, hp]
  by_cases hs : env.outputExists && !ow
  · simp [hs]
  · rcases henv : env.spawnError with _ | e
    · by_cases hd : durationFalsy env.probedDuration
      · simp [hs, henv, hd]
      · rcases hdur : env.probedDuration with _ | d
        · simp [hs, henv, hdur]
        · rw [hdur] at hd
          simp [hs, henv, hdur, hd]
    · simp [hs, henv]

/-- The skip path: target exists and `overwrite` is false. -/
theorem convert_media_skip (env : FileEnv) (i o : String) (q : Bool)
    (hm : env.ffmpegFound = true) (hp : env.ffprobeFound = true)
    (hex : env.outputExists = true) :
    convert_media env i o false q
      = ((if q then [] else [.print ("Skipping (exists): " ++ o)]), .ok) := by
  unfold convert_media
  rw [hm, hp, hex]
  simp

/-- The known-duration progress path. -/
theorem convert_media_progress (env : FileEnv) (i o : String) (ow q : Bool) (d : ℚ)
    (hm : env.ffmpegFound = true) (hp : env.ffprobeFound = true)
    (hs : (env.outputExists && !ow) = false)
    (hsp : env.spawnError = none)
    (hdur : env.probedDuration = some d) (hd : d ≠ 0) :
    convert_media env i o ow q
      = (.spawn (ffmpegCommand i o ow) :: (progressEffects d env.stdoutLines
          ++ exitReport i o q env.exitCode), .ok) := by
  unfold convert_media
  rw [hm, hp]
  simp [hs, hsp, hdur, durationFalsy, hd]

/-- With `overwrite = true` and both tools present, the `Popen` call is
always reached, whatever the rest of the environment looks like. -/
theorem convert_media_spawns (env : FileEnv) (i o : String) (q : Bool)
    (hm : env.ffmpegFound = true) (hp : env.ffprobeFound = true) :
    Effect.spawn (ffmpegCommand i o true) ∈ (convert_media env i o true q).1 := by
  unfold convert_media
  rw [hm, hp]
  rcases henv : env.spawnError with _ | e
  · by_cases hd : durationFalsy env.probedDuration
    · simp [henv, hd]
    · rcases hdur : env.probedDuration with _ | d
      · simp [henv, hdur]
      · rw [hdur] at hd
        simp [henv, hdur, hd]
  · simp [henv]

/-- The forced-completion tail of `progressEffects` contributes no entry
to the `converted_files` trace. -/
theorem convertedOf_progressEffects (d : ℚ) (ls : List String) :
    convertedOf (progressEffects d ls) = [] := by
  unfold progressEffects
  rw [convertedOf_append, convertedOf_map_pbar]
  by_cases h : (consumeRun d 0 ls).1 < d
  · simp [h, convertedOf]
  · simp [h, convertedOf]

/-- The function `convert_media` never touches the `converted_files` list. -/
theorem convertedOf_convert_media (env : FileEnv) (i o : String) (ow q : Bool) :
    convertedOf (convert_media env i o ow q).1 = [] := by
  unfold convert_media
  by_cases hm : env.ffmpegFound = false
  · simp [hm, convertedOf_nil]
  · by_cases hp : env.ffprobeFound = false
    · simp [hm, hp, convertedOf_nil]
    · by_cases hs : env.outputExists && !ow
      · by_cases hq : q <;> simp [hm, hp, hs, hq, convertedOf_nil, convertedOf_cons_print]
      · rcases henv : env.spawnError with _ | e
        · by_cases hd : durationFalsy env.probedDuration
          · simp [hm, hp, hs, henv, hd, convertedOf_cons_spawn, convertedOf_exitReport]
          · rcases hdur : env.probedDuration with _ | dd
            · simp [hm, hp, hs, henv, hdur, convertedOf_cons_spawn, convertedOf_exitReport]
            · rw [hdur] at hd
              simp [hm, hp, hs, henv, hdur, hd, convertedOf_cons_spawn, convertedOf_append,
                convertedOf_exitReport, convertedOf_progressEffects]
        · simp [hm, hp, hs, henv, convertedOf_cons_spawn, convertedOf_cons_print,
            convertedOf_nil]

/-- An unknown duration means no progress-bar update is ever issued. -/
theorem pbarUpdates_convert_media_none (env : FileEnv) (i o : String) (ow q : Bool)
    (hdur : env.probedDuration = none) :
    pbarUpdates (convert_media env i o ow q).1 = [] := by
  unfold convert_media
  by_cases hm : env.ffmpegFound = false
  · simp [hm, pbarUpdates_nil]
  · by_cases hp : env.ffprobeFound = false
    · simp [hm, hp, pbarUpdates_nil]
    · by_cases hs : env.outputExists && !ow
      · by_cases hq : q <;> simp [hm, hp, hs, hq, pbarUpdates_nil, pbarUpdates_cons_print]
      · rcases henv : env.spawnError with _ | e
        · simp [hm, hp, hs, henv, hdur, durationFalsy, pbarUpdates_cons_spawn,
            pbarUpdates_exitReport]
        · simp [hm, hp, hs, henv, pbarUpdates_cons_spawn, pbarUpdates_cons_print,
            pbarUpdates_nil]

/-! ## Path lemmas for `convert_folder` -/

/-- When every file's environment has both tools present, the per-file
loop completes: its trace is, per source file in order, the
`convert_media` trace followed by the append to `converted_files`; the
converted list is exactly the file list; nothing is raised. -/
theorem batchRun_eq (env : FolderEnv) (of oe : String) (ow q : Bool)
    (files : List String)
    (h : ∀ src ∈ files, (env.fileEnv src).ffmpegFound = true ∧
      (env.fileEnv src).ffprobeFound = true) :
    batchRun env of oe ow q files =
      ((files.map fun src =>
          (convert_media (env.fileEnv src) src (targetFor of oe src) ow q).1
            ++ [Effect.appendConverted src]).flatten,
       files, none) := by
  induction files with
  | nil => rfl
  | cons src rest ih =>
    have hs := h src (by simp)
    have hr : (convert_media (env.fileEnv src) src (targetFor of oe src) ow q).2 = .ok :=
      convert_media_returns _ _ _ _ _ hs.1 hs.2
    unfold batchRun
    simp only [hr, ih fun s hs' => h s (List.mem_cons_of_mem _ hs')]
    simp

/-- Full-run shape of `convert_folder` with an archive folder, when the
input folder exists and every file's environment has both tools. -/
theorem convert_folder_eq (env : FolderEnv) (inf of oe : String)
    (rec ow q : Bool) (a : String)
    (hdir : env.isDir = true)
    (h : ∀ src ∈ iter_media_files env inf rec,
      (env.fileEnv src).ffmpegFound = true ∧ (env.fileEnv src).ffprobeFound = true) :
    convert_folder env inf of oe rec ow q (some a) =
      (Effect.mkdir of ::
        ((iter_media_files env inf rec).map fun src =>
          (convert_media (env.fileEnv src) src (targetFor of oe src) ow q).1
            ++ [Effect.appendConverted src]).flatten
        ++ Effect.mkdir a ::
          ((iter_media_files env inf rec).map fun src =>
            Effect.move src (pyJoin a (pyBasename src)))
        ++ (if q then []
            else [Effect.print ("Moved " ++ toString (iter_media_files env inf rec).length
              ++ " file(s) to archive: " ++ a)]),
       .ok) := by
  unfold convert_folder
  rw [hdir]
  simp only [batchRun_eq env of oe ow q _ h]
  simp

theorem convertedOf_cons_mkdir (p : String) (l : List Effect) :
    convertedOf (.mkdir p :: l) = convertedOf l := rfl

theorem convertedOf_cons_move (a b : String) (l : List Effect) :
    convertedOf (.move a b :: l) = convertedOf l := rfl

theorem convertedOf_cons_append (p : String) (l : List Effect) :
    convertedOf (.appendConverted p :: l) = p :: convertedOf l := rfl

theorem convertedOf_map_move (f : String → String) (l : List String) :
    convertedOf (l.map fun src => Effect.move src (f src)) = [] := by
  induction l with
  | nil => rfl
  | cons x xs ih => rw [List.map_cons, convertedOf_cons_move, ih]

/-- The `converted_files` entries of the per-file loop's trace are
exactly the processed sources, in order. -/
theorem convertedOf_batch_trace (env : FolderEnv) (of oe : String) (ow q : Bool)
    (files : List String) :
    convertedOf ((files.map fun src =>
        (convert_media (env.fileEnv src) src (targetFor of oe src) ow q).1
          ++ [Effect.appendConverted src]).flatten) = files := by
  induction files with
  | nil => rfl
  | cons src rest ih =>
    rw [List.map_cons, List.flatten_cons, convertedOf_append, convertedOf_append,
      convertedOf_convert_media, convertedOf_cons_append, convertedOf_nil, ih]
    rfl

/-- On a complete batch with an archive folder, the `converted_files`
entries of the whole trace are exactly the located files. -/
theorem convertedOf_folder_trace (env : FolderEnv) (inf of oe : String)
    (rec ow q : Bool) (a : String)
    (hdir : env.isDir = true)
    (h : ∀ src ∈ iter_media_files env inf rec,
      (env.fileEnv src).ffmpegFound = true ∧ (env.fileEnv src).ffprobeFound = true) :
    convertedOf (convert_folder env inf of oe rec ow q (some a)).1
      = iter_media_files env inf rec := by
  rw [convert_folder_eq env inf of oe rec ow q a hdir h]
  by_cases hq : q <;>
    simp [hq, convertedOf_append, convertedOf_cons_mkdir, convertedOf_batch_trace,
      convertedOf_map_move, convertedOf_cons_print, convertedOf_nil, convertedOf_cons_move]

theorem startsWithL_append_self (p t : List Char) :
    startsWithL p (p ++ t) = true := by
  induction p with
  | nil => rfl
  | cons a as ih => simp [startsWithL, ih]

/-! ## Claim C1 -/

/-- C1: for every `convert_media` job that reaches the known-duration
progress path with a positive probed duration `d`, every progress-bar
delta it emits is positive (the last-reported value is monotonically
non-decreasing), every partial sum of the deltas — every value the
indicator takes — is at most `d`, the loop's last-reported value stays at
most `d`, and the total of all progress-bar updates (the forced
completion after process exit included) is exactly `d`. -/
theorem C1_progress_monotone_bounded_complete
    (env : FileEnv) (i o : String) (ow q : Bool) (d : ℚ)
    (hm : env.ffmpegFound = true) (hp : env.ffprobeFound = true)
    (hs : (env.outputExists && !ow) = false)
    (hsp : env.spawnError = none)
    (hdur : env.probedDuration = some d) (hd : 0 < d) :
    (∀ u ∈ pbarUpdates (convert_media env i o ow q).1, 0 < u) ∧
    (∀ p : List ℚ, p <+: pbarUpdates (convert_media env i o ow q).1 → p.sum ≤ d) ∧
    (consumeRun d 0 env.stdoutLines).1 ≤ d ∧
    (pbarUpdates (convert_media env i o ow q).1).sum = d := by
  have heq := convert_media_progress env i o ow q d hm hp hs hsp hdur (ne_of_gt hd)
  have hupd : pbarUpdates (convert_media env i o ow q).1
      = (consumeRun d 0 env.stdoutLines).2
        ++ (if (consumeRun d 0 env.stdoutLines).1 < d
            then [d - (consumeRun d 0 env.stdoutLines).1] else []) := by
    rw [heq]
    show pbarUpdates (Effect.spawn (ffmpegCommand i o ow)
      :: (progressEffects d env.stdoutLines ++ exitReport i o q env.exitCode)) = _
    rw [pbarUpdates_cons_spawn, pbarUpdates_append, pbarUpdates_exitReport,
      List.append_nil]
    unfold progressEffects
    rw [pbarUpdates_append, pbarUpdates_map_pbar]
    by_cases hlt : (consumeRun d 0 env.stdoutLines).1 < d
    · simp [hlt, pbarUpdates]
    · simp [hlt, pbarUpdates]
  have hle : (consumeRun d 0 env.stdoutLines).1 ≤ d :=
    consumeRun_fst_le d env.stdoutLines 0 hd.le
  have hfe : (consumeRun d 0 env.stdoutLines).1
      = ((consumeRun d 0 env.stdoutLines).2).sum := by
    simpa using consumeRun_fst_eq d env.stdoutLines 0
  have hpos : ∀ u ∈ pbarUpdates (convert_media env i o ow q).1, 0 < u := by
    rw [hupd]
    intro u hu
    rcases List.mem_append.1 hu with hu | hu
    · exact consumeRun_pos d env.stdoutLines 0 u hu
    · by_cases hlt : (consumeRun d 0 env.stdoutLines).1 < d
      · simp only [hlt, ite_true, List.mem_singleton] at hu
        subst hu
        linarith
      · simp [hlt] at hu
  have htot : (pbarUpdates (convert_media env i o ow q).1).sum = d := by
    rw [hupd, List.sum_append]
    by_cases hlt : (consumeRun d 0 env.stdoutLines).1 < d
    · simp only [hlt, ite_true, List.sum_singleton]
      linarith [hfe]
    · have : (consumeRun d 0 env.stdoutLines).1 = d := le_antisymm hle (not_lt.1 hlt)
      simp only [hlt, ite_false, List.sum_nil]
      linarith [hfe]
  refine ⟨hpos, ?_, hle, htot⟩
  intro p hp'
  have hps := sum_of_IsPrefix_le (fun u hu => (hpos u hu).le) hp'
  exact le_of_le_of_eq hps htot

/-- C1 witness: the theorem at the repository's own test scenario
(duration 10, the four-line mocked progress stream). -/
theorem C1_witness :
    (∀ u ∈ pbarUpdates (convert_media wEnvProgress "song.wav" "song.mp3" false false).1,
      0 < u) ∧
    (∀ p : List ℚ,
      p <+: pbarUpdates (convert_media wEnvProgress "song.wav" "song.mp3" false false).1 →
      p.sum ≤ 10) ∧
    (consumeRun 10 0 wEnvProgress.stdoutLines).1 ≤ 10 ∧
    (pbarUpdates (convert_media wEnvProgress "song.wav" "song.mp3" false false).1).sum
      = 10 :=
  C1_progress_monotone_bounded_complete wEnvProgress "song.wav" "song.mp3" false false 10
    rfl rfl rfl rfl rfl (by norm_num)

/-! ## Claim C2 -/

/-- C2 counterexample: with `ffmpeg` missing from `PATH`,
`convert_media` does **not** suppress the environment error —
`check_ffmpeg()` is called before the `try` block, so the
`EnvironmentError` propagates to the caller and nothing is printed. -/
theorem C2_counterexample :
    convert_media wEnvNoFfmpeg "song.wav" "out/song.mp3" false false
      = ([], .raised "ffmpeg is not installed or not found in PATH.") := rfl

/-- C2 (amended): every exception raised after the environment check is
caught — when both tools are found `convert_media` always returns
normally, and a `Popen` failure is logged as an error line identifying
the source file — but the missing-tool `EnvironmentError` is raised
before the `try` block and propagates to the caller. -/
theorem C2_exception_containment
    (env : FileEnv) (i o : String) (ow q : Bool)
    (hm : env.ffmpegFound = true) (hp : env.ffprobeFound = true) :
    (convert_media env i o ow q).2 = .ok ∧
    (∀ e, env.spawnError = some e → (env.outputExists && !ow) = false →
      Effect.print ("Error converting " ++ i ++ ": " ++ e)
        ∈ (convert_media env i o ow q).1) := by
  refine ⟨convert_media_returns env i o ow q hm hp, ?_⟩
  intro e he hs
  unfold convert_media
  rw [hm, hp]
  simp [hs, he]

/-- C2 witness: the amended theorem at a spawn-failure environment. -/
theorem C2_witness :
    (convert_media wEnvSpawnFail "a.wav" "a.mp3" false false).2 = .ok ∧
    (∀ e, wEnvSpawnFail.spawnError = some e →
      (wEnvSpawnFail.outputExists && !false) = false →
      Effect.print ("Error converting " ++ "a.wav" ++ ": " ++ e)
        ∈ (convert_media wEnvSpawnFail "a.wav" "a.mp3" false false).1) :=
  C2_exception_containment wEnvSpawnFail "a.wav" "a.mp3" false false rfl rfl

/-! ## Claim C4 -/

/-- C4: with both tools present, an existing target and
`overwrite = false`, `convert_media` performs no effect other than the
skip message (suppressed when quiet) and returns — in particular no
process is spawned; with `overwrite = true` the `Popen` call is always
reached, whatever the rest of the environment. -/
theorem C4_skip_before_spawn
    (env : FileEnv) (i o : String) (q : Bool)
    (hm : env.ffmpegFound = true) (hp : env.ffprobeFound = true)
    (hex : env.outputExists = true) :
    convert_media env i o false q
        = ((if q then [] else [Effect.print ("Skipping (exists): " ++ o)]), .ok) ∧
    Effect.spawn (ffmpegCommand i o true) ∈ (convert_media env i o true q).1 :=
  ⟨convert_media_skip env i o q hm hp hex, convert_media_spawns env i o q hm hp⟩

/-- C4 witness: the theorem at an existing-target environment. -/
theorem C4_witness :
    convert_media wEnvSkip "a.wav" "a.mp3" false false
        = ((if false then [] else [Effect.print ("Skipping (exists): " ++ "a.mp3")]), .ok) ∧
    Effect.spawn (ffmpegCommand "a.wav" "a.mp3" true)
      ∈ (convert_media wEnvSkip "a.wav" "a.mp3" true false).1 :=
  C4_skip_before_spawn wEnvSkip "a.wav" "a.mp3" false rfl rfl rfl

/-! ## Claim C7 -/

/-- C7: when the input folder is not an existing directory,
`convert_folder` prints the message and terminates the process with exit
status 1, its only effect being that print: no output folder creation, no
conversion, no archiving. -/
theorem C7_missing_input_folder
    (env : FolderEnv) (inf of oe : String) (rec ow q : Bool) (arch : Option String)
    (h : env.isDir = false) :
    convert_folder env inf of oe rec ow q arch
      = ([Effect.print ("Input folder does not exist: " ++ inf)], .exited 1) := by
  unfold convert_folder
  rw [h]
  simp

/-- C7 witness: the theorem at a missing-folder environment. -/
theorem C7_witness :
    convert_folder wEnvNoDir "gone" "out" ".wav" false false false (some "arc")
      = ([Effect.print ("Input folder does not exist: " ++ "gone")], .exited 1) :=
  C7_missing_input_folder wEnvNoDir "gone" "out" ".wav" false false false (some "arc") rfl

/-! ## Claim C10 -/

/-- C10: a probed duration of exactly `0.0` is treated identically to an
unknown duration — the `if not duration` test is satisfied by both — so
the run takes the no-progress-bar drain path: the whole result coincides
with the unknown-duration run and no progress-bar update is emitted;
success or error is reported from the exit code alone. -/
theorem C10_zero_duration_is_unknown
    (env : FileEnv) (i o : String) (ow q : Bool) :
    convert_media { env with probedDuration := some 0 } i o ow q
        = convert_media { env with probedDuration := none } i o ow q ∧
    pbarUpdates (convert_media { env with probedDuration := some 0 } i o ow q).1 = [] := by
  have he : convert_media { env with probedDuration := some 0 } i o ow q
      = convert_media { env with probedDuration := none } i o ow q := by
    unfold convert_media
    simp [durationFalsy]
  refine ⟨he, ?_⟩
  rw [he]
  exact pbarUpdates_convert_media_none _ i o ow q rfl

/-! ## Claim C3 -/

/-- C3: on a complete batch (input folder exists, tools present for every
located file) with an archive folder, the trace of `convert_folder` is
exactly: create the output folder; for each located file in order, the
file's `convert_media` trace followed immediately by its single append to
the `converted_files` list; create the archive folder; move every
converted source to the archive under its own basename; and print the
`Moved <n> file(s)` summary unless quiet.  Consequently every located
file is appended exactly once, only after its conversion call returned,
whether that call succeeded, failed or skipped. -/
theorem C3_converted_list_and_archive
    (env : FolderEnv) (inf of oe : String) (rec ow q : Bool) (a : String)
    (hdir : env.isDir = true)
    (h : ∀ src ∈ iter_media_files env inf rec,
      (env.fileEnv src).ffmpegFound = true ∧ (env.fileEnv src).ffprobeFound = true) :
    convert_folder env inf of oe rec ow q (some a) =
      (Effect.mkdir of ::
        ((iter_media_files env inf rec).map fun src =>
          (convert_media (env.fileEnv src) src (targetFor of oe src) ow q).1
            ++ [Effect.appendConverted src]).flatten
        ++ Effect.mkdir a ::
          ((iter_media_files env inf rec).map fun src =>
            Effect.move src (pyJoin a (pyBasename src)))
        ++ (if q then []
            else [Effect.print ("Moved " ++ toString (iter_media_files env inf rec).length
              ++ " file(s) to archive: " ++ a)]),
       .ok) ∧
    convertedOf (convert_folder env inf of oe rec ow q (some a)).1
      = iter_media_files env inf rec :=
  ⟨convert_folder_eq env inf of oe rec ow q a hdir h,
   convertedOf_folder_trace env inf of oe rec ow q a hdir h⟩

/-- C3 witness: the theorem at a concrete one-media-file folder. -/
theorem C3_witness :
    convert_folder wEnvFolder "in" "out" ".flac" false false false (some "arc") =
      (Effect.mkdir "out" ::
        ((iter_media_files wEnvFolder "in" false).map fun src =>
          (convert_media (wEnvFolder.fileEnv src) src (targetFor "out" ".flac" src)
            false false).1 ++ [Effect.appendConverted src]).flatten
        ++ Effect.mkdir "arc" ::
          ((iter_media_files wEnvFolder "in" false).map fun src =>
            Effect.move src (pyJoin "arc" (pyBasename src)))
        ++ (if false then []
            else [Effect.print ("Moved "
              ++ toString (iter_media_files wEnvFolder "in" false).length
              ++ " file(s) to archive: " ++ "arc")]),
       .ok) ∧
    convertedOf (convert_folder wEnvFolder "in" "out" ".flac" false false false
        (some "arc")).1
      = iter_media_files wEnvFolder "in" false :=
  C3_converted_list_and_archive wEnvFolder "in" "out" ".flac" false false false "arc"
    rfl (by decide)

/-! ## Claim C9 -/

/-- C9: when every located file's target already exists and
`overwrite = false`, no transcode process is ever spawned during the
batch, yet every source path is still recorded in `converted_files`, and
— with an archive folder supplied — every one of those never-converted
originals is moved into the archive under its own basename. -/
theorem C9_skipped_files_still_archived
    (env : FolderEnv) (inf of oe : String) (rec q : Bool) (a : String)
    (hdir : env.isDir = true)
    (htools : ∀ src ∈ iter_media_files env inf rec,
      (env.fileEnv src).ffmpegFound = true ∧ (env.fileEnv src).ffprobeFound = true)
    (hex : ∀ src ∈ iter_media_files env inf rec,
      (env.fileEnv src).outputExists = true) :
    convertedOf (convert_folder env inf of oe rec false q (some a)).1
        = iter_media_files env inf rec ∧
    (∀ cmd, Effect.spawn cmd ∉ (convert_folder env inf of oe rec false q (some a)).1) ∧
    (∀ src ∈ iter_media_files env inf rec,
      Effect.move src (pyJoin a (pyBasename src))
        ∈ (convert_folder env inf of oe rec false q (some a)).1) := by
  have heq := convert_folder_eq env inf of oe rec false q a hdir htools
  refine ⟨convertedOf_folder_trace env inf of oe rec false q a hdir htools, ?_, ?_⟩
  · intro cmd hmem
    rw [heq] at hmem
    simp only [List.mem_cons, List.mem_append, List.mem_flatten, List.mem_map] at hmem
    rcases hmem with (((h | ⟨l, ⟨src, hsrc, rfl⟩, hin⟩) | h | ⟨src, hsrc, h⟩) | h)
    · exact Effect.noConfusion h
    · have hsk := convert_media_skip (env.fileEnv src) src (targetFor of oe src) q
        (htools src hsrc).1 (htools src hsrc).2 (hex src hsrc)
      rw [hsk] at hin
      by_cases hq : q
      · simp [hq] at hin
      · simp [hq] at hin
    · exact Effect.noConfusion h
    · exact Effect.noConfusion h
    · by_cases hq : q <;> simp [hq] at h
  · intro src hsrc
    rw [heq]
    simp only [List.mem_cons, List.mem_append, List.mem_map]
    left
    right
    right
    exact ⟨src, hsrc, rfl⟩

/-- C9 witness: the theorem at a concrete folder whose single media
file's target already exists. -/
theorem C9_witness :
    convertedOf (convert_folder wEnvFolder "in" "out" ".flac" false false false
        (some "arc")).1
      = iter_media_files wEnvFolder "in" false ∧
    (∀ cmd, Effect.spawn cmd
      ∉ (convert_folder wEnvFolder "in" "out" ".flac" false false false (some "arc")).1) ∧
    (∀ src ∈ iter_media_files wEnvFolder "in" false,
      Effect.move src (pyJoin "arc" (pyBasename src))
        ∈ (convert_folder wEnvFolder "in" "out" ".flac" false false false
          (some "arc")).1) :=
  C9_skipped_files_still_archived wEnvFolder "in" "out" ".flac" false false "arc"
    rfl (by decide) (by decide)

/-! ## Claim C5 -/

/-- C5: the progress parser maps `out_time_ms=5000000` to 5 seconds and,
in general, `out_time_ms=<integer>` to the integer divided by 1 000 000;
it maps `out_time=00:01:23.500000` to 83.5 seconds
(`hours*3600 + minutes*60 + seconds`); and `progress=end` carries no
timestamp but is the end-of-stream signal that stops consumption
regardless of what follows. -/
theorem C5_parser_semantics :
    lineTime "out_time_ms=5000000" = some 5 ∧
    lineTime "out_time=00:01:23.500000" = some (167 / 2) ∧
    isEnd "progress=end" = true ∧
    lineTime "progress=end" = none ∧
    (∀ (d lt : ℚ) (rest : List String),
      consumeRun d lt ("progress=end" :: rest) = (lt, [])) ∧
    (∀ (s : String) (n : ℤ), pyInt s = some n →
      lineTime ("out_time_ms=" ++ s) = some ((n : ℚ) / 1000000)) := by
  refine ⟨?_, ?_, rfl, rfl, ?_, ?_⟩
  · have h : lineTime "out_time_ms=5000000" = some (((5000000 : ℤ) : ℚ) / 1000000) := rfl
    rw [h]
    norm_num
  · have h : lineTime "out_time=00:01:23.500000"
        = some ((((23 : ℕ) : ℚ) + ((500000 : ℕ) : ℚ) / (10 : ℚ) ^ (6 : ℕ))
          + 60 * (((1 : ℤ) : ℚ) + 60 * ((0 : ℤ) : ℚ))) := rfl
    rw [h]
    norm_num
  · intro d lt rest
    have h1 : pyStrip "progress=end" = "progress=end" := rfl
    have h2 : ("progress=end" : String).data.isEmpty = false := rfl
    have h3 : lineTime "progress=end" = none := rfl
    have h4 : isEnd "progress=end" = true := rfl
    simp [consumeRun, h1, h2, h3, h4, stepTime]
  · intro s n hn
    unfold lineTime
    have hd : ("out_time_ms=" ++ s).data = "out_time_ms=".data ++ s.data :=
      String.data_append _ _
    have hsw : startsWithL "out_time_ms=".data ("out_time_ms=".data ++ s.data) = true :=
      startsWithL_append_self _ _
    have hsp : splitFirst '=' ("out_time_ms=".data ++ s.data)
        = some ("out_time_ms".data, s.data) := rfl
    have hn' : pyIntChars s.data = some n := hn
    rw [hd]
    simp only [hsw, eq_self_iff_true, if_true, hsp, Option.some_bind, hn']

/-- C5 witness: the general `out_time_ms` clause at a concrete integer. -/
theorem C5_witness :
    lineTime ("out_time_ms=" ++ "5000000") = some (((5000000 : ℤ) : ℚ) / 1000000) :=
  C5_parser_semantics.2.2.2.2.2 "5000000" 5000000 rfl

/-! ## Claim C6 -/

/-- C6: a progress line that is blank after stripping, or whose stripped
text yields no timestamp (unrecognized key, missing value, unparsable
value) and is not the end signal, changes nothing: the loop continues on
the rest of the stream with the same last-reported value and no
progress-bar update (the parser returns `none` instead of raising).
Concretely, `progress=` (no value), `out_time=garbage` and the
unrecognized `frame=42` all yield no timestamp event, and `progress=` is
not an end signal either. -/
theorem C6_malformed_lines_ignored :
    (∀ (d lt : ℚ) (raw : String) (rest : List String), pyStrip raw = "" →
      consumeRun d lt (raw :: rest) = consumeRun d lt rest) ∧
    (∀ (d lt : ℚ) (raw : String) (rest : List String),
      lineTime (pyStrip raw) = none → isEnd (pyStrip raw) = false →
      consumeRun d lt (raw :: rest) = consumeRun d lt rest) ∧
    lineTime "progress=" = none ∧
    isEnd "progress=" = false ∧
    lineTime "out_time=garbage" = none ∧
    lineTime "frame=42" = none := by
  refine ⟨?_, ?_, rfl, rfl, rfl, rfl⟩
  · intro d lt raw rest h
    simp [consumeRun, h]
  · intro d lt raw rest hnone hend
    by_cases hb : (pyStrip raw).data.isEmpty
    · simp [consumeRun, hb]
    · simp [consumeRun, hb, hend, stepTime, hnone]

/-- C6 witness: the theorem's two general clauses at concrete malformed
and blank lines. -/
theorem C6_witness :
    consumeRun 1 0 ["out_time=garbage" ++ "\x0a", "x"] = consumeRun 1 0 ["x"] ∧
    consumeRun 1 0 ["  " ++ "\x0a", "x"] = consumeRun 1 0 ["x"] :=
  ⟨C6_malformed_lines_ignored.2.1 1 0 ("out_time=garbage" ++ "\x0a") ["x"] rfl rfl,
   C6_malformed_lines_ignored.1 1 0 ("  " ++ "\x0a") ["x"] rfl⟩

/-! ## Claim C8 -/

/-- C8: the locator yields exactly the regular files whose (lowercased)
path ends with one of the ten recognized extensions — membership in its
output is equivalent to coming from a listed regular-file entry passing
the extension test, non-regular entries and other suffixes are never
yielded, each path is yielded at most once when the underlying
enumeration is duplicate-free, the non-recursive mode draws only from the
direct children of the root, the recursive mode only from the walked
directories, and the extension test itself is the case-insensitive
suffix match against `MEDIA_EXTENSIONS`. -/
theorem C8_locator_filter (inf : String) (env : FolderEnv) :
    (∀ p, p ∈ iter_media_files env inf false ↔
      ∃ e ∈ env.listing, p = pyJoin inf e.name ∧ e.isFile = true ∧
        mediaMatch (pyJoin inf e.name) = true) ∧
    ((env.listing.map fun e => pyJoin inf e.name).Nodup →
      (iter_media_files env inf false).Nodup) ∧
    (∀ p, p ∈ iter_media_files env inf true ↔
      ∃ rf ∈ env.walk, ∃ e ∈ rf.2, p = pyJoin rf.1 e.name ∧ e.isFile = true ∧
        mediaMatch (pyJoin rf.1 e.name) = true) ∧
    (((env.walk.map fun rf => rf.2.map fun e => pyJoin rf.1 e.name).flatten).Nodup →
      (iter_media_files env inf true).Nodup) ∧
    (∀ full : String, mediaMatch full = true ↔
      ∃ ext ∈ MEDIA_EXTENSIONS, endsWithL ext.data (toLowerL full.data) = true) := by
  have hfalse : iter_media_files env inf false
      = (env.listing.filter fun e =>
          e.isFile && mediaMatch (pyJoin inf e.name)).map
          (fun e => pyJoin inf e.name) := rfl
  have htrue : iter_media_files env inf true
      = (env.walk.map fun rf =>
          ((rf.2.filter fun e => e.isFile && mediaMatch (pyJoin rf.1 e.name)).map
            fun e => pyJoin rf.1 e.name)).flatten := rfl
  refine ⟨?_, ?_, ?_, ?_, ?_⟩
  · intro p
    rw [hfalse]
    simp only [List.mem_map, List.mem_filter, Bool.and_eq_true]
    constructor
    · rintro ⟨e, ⟨he, hf, hm⟩, rfl⟩
      exact ⟨e, he, rfl, hf, hm⟩
    · rintro ⟨e, he, rfl, hf, hm⟩
      exact ⟨e, ⟨he, hf, hm⟩, rfl⟩
  · intro hnd
    rw [hfalse]
    exact List.Nodup.sublist ((List.filter_sublist _).map _) hnd
  · intro p
    rw [htrue]
    simp only [List.mem_flatten, List.mem_map]
    constructor
    · rintro ⟨l, ⟨rf, hrf, rfl⟩, hp⟩
      simp only [List.mem_map, List.mem_filter, Bool.and_eq_true] at hp
      rcases hp with ⟨e, ⟨he, hf, hm⟩, rfl⟩
      exact ⟨rf, hrf, e, he, rfl, hf, hm⟩
    · rintro ⟨rf, hrf, e, he, rfl, hf, hm⟩
      refine ⟨_, ⟨rf, hrf, rfl⟩, ?_⟩
      refine List.mem_map_of_mem _ (List.mem_filter.2 ⟨he, ?_⟩)
      simp [hf, hm]
  · intro hnd
    rw [htrue]
    have key : ∀ ws : List (String × List DirEntry),
        List.Sublist
          ((ws.map fun rf =>
            ((rf.2.filter fun e => e.isFile && mediaMatch (pyJoin rf.1 e.name)).map
              fun e => pyJoin rf.1 e.name)).flatten)
          ((ws.map fun rf => rf.2.map fun e => pyJoin rf.1 e.name).flatten) := by
      intro ws
      induction ws with
      | nil => simp
      | cons w ws ih =>
        simp only [List.map_cons, List.flatten_cons]
        exact List.Sublist.append ((List.filter_sublist _).map _) ih
    exact List.Nodup.sublist (key env.walk) hnd
  · intro full
    unfold mediaMatch
    exact List.any_eq_true

/-- C8 witness: the theorem at a concrete folder with a media file, a
non-media file and a subdirectory. -/
theorem C8_witness :
    (iter_media_files wEnvFolder "in" false).Nodup ∧
    (iter_media_files wEnvFolder "in" true).Nodup ∧
    ("in/a.wav" ∈ iter_media_files wEnvFolder "in" false) :=
  ⟨(C8_locator_filter "in" wEnvFolder).2.1 (by decide),
   (C8_locator_filter "in" wEnvFolder).2.2.2.1 (by decide),
   ((C8_locator_filter "in" wEnvFolder).1 "in/a.wav").2 (by decide)⟩

end ConvertAudioTool
